import Mathlib

/-!
Verification of the AIM-Robotics LiDAR streaming core: a shallow embedding of
the wire protocol shared by the sender (`src/SLAM/lidar_tx/lidar_stream.cpp`)
and the receiver (`src/SLAM/slam_rx/cpp/src/lidar_protocol_cpp.cpp`,
`src/SLAM/slam_rx/cpp/src/frame_builder_cpp.cpp`), together with theorems
about the codec round-trip, the validation order, the CRC-32 engines, the
sender filter/segmentation pipeline, the timestamp-fallback state machine and
the frame builder.

Modelling conventions:
 * machine integers are `Nat` (unsigned) or `Int` (signed) with explicit
   `% 2^w` where the code relies on wrap-around;
 * byte buffers are `List Nat` with every element `< 256`;
 * IEEE-754 32-bit floats are modelled as exact rationals (`FQ` below) for
   the sender's geometry filter, and as raw 32-bit little-endian bit
   patterns for the wire codec (the code moves them with `memcpy`, so the
   codec never interprets the float value);
 * fallible code returns `Except`/`Option`.
-/

-- ===========================================================================
-- Protocol constants (lidar_protocol_cpp.hpp lines 8-13, lidar_stream.cpp
-- lines 43-50)
-- ===========================================================================

def LIDAR_MAGIC : Nat := 0x4C495652

def LIDAR_VERSION : Nat := 1

def HEADER_SIZE : Nat := 27

def POINT_SIZE : Nat := 13

def MAX_POINTS_PER_PACKET : Nat := 105

def UINT32_MOD : Nat := 4294967296

-- ===========================================================================
-- Little-endian byte helpers (the packed structs are copied with memcpy on a
-- little-endian host; `leVal` reads a field, `leBytes` writes one)
-- ===========================================================================

/-- Value of a little-endian byte string. -/
def leVal (l : List Nat) : Nat := l.foldr (fun d acc => d + 256 * acc) 0

/-- The `len` little-endian bytes of `v` (i.e. `v % 256^len` digit by digit). -/
def leBytes : Nat → Nat → List Nat
  | 0, _ => []
  | n + 1, v => v % 256 :: leBytes n (v / 256)

/-- Read the packed header field stored at byte offset `off` with width
`len`, as the zero-copy `reinterpret_cast<const PacketHeader*>` does on a
little-endian host. -/
def fieldAt (b : List Nat) (off len : Nat) : Nat := leVal ((b.drop off).take len)

-- ===========================================================================
-- CRC-32 (IEEE 802.3) — sender table implementation, lidar_stream.cpp
-- lines 165-198; zlib's ::crc32 (used by the receiver) computes the same
-- function
-- ===========================================================================

/-- One bit step of the reflected IEEE 802.3 polynomial 0xEDB88320
(lidar_stream.cpp lines 168-173). -/
def crc32_bit_step (crc : Nat) : Nat :=
  if crc % 2 = 1 then (crc / 2) ^^^ 0xEDB88320 else crc / 2

/-- Entry `i` of the sender's CRC-32 lookup table (lidar_stream.cpp
`crc32_init_table`). -/
def crc32_table_entry (i : Nat) : Nat := Nat.iterate crc32_bit_step 8 i

/-- One byte of the table-driven CRC loop (lidar_stream.cpp lines 193-196). -/
def crc32_update (crc b : Nat) : Nat :=
  (crc >>> 8) ^^^ crc32_table_entry ((crc ^^^ b) % 256)

/-- Sender `crc32_calculate`: init 0xFFFFFFFF, table loop, final XOR
(lidar_stream.cpp lines 187-198). -/
def crc32_calculate (data : List Nat) : Nat :=
  (data.foldl crc32_update 0xFFFFFFFF) ^^^ 0xFFFFFFFF

/-- Receiver software path `crc32_sw_zlib` (lidar_protocol_cpp.cpp lines
103-105). zlib's `::crc32` is an external library; it computes IEEE 802.3
CRC-32, the same function as the sender's table implementation above, which
self-tests against the IEEE vectors. -/
def crc32_sw_zlib (data : List Nat) : Nat := crc32_calculate data

-- ===========================================================================
-- CRC-32C (Castagnoli) — what the ARM `__crc32c*` and SSE4.2 `_mm_crc32_*`
-- instructions used by crc32_hw_arm / crc32_hw_sse42 actually compute
-- (lidar_protocol_cpp.cpp lines 40-99)
-- ===========================================================================

/-- One bit step of the reflected Castagnoli polynomial 0x82F63B78. -/
def crc32c_bit_step (crc : Nat) : Nat :=
  if crc % 2 = 1 then (crc / 2) ^^^ 0x82F63B78 else crc / 2

/-- One byte of the CRC-32C register update: the semantics of the byte-sized
hardware instruction (`__crc32cb` / `_mm_crc32_u8`). -/
def crc32c_update (crc b : Nat) : Nat :=
  Nat.iterate crc32c_bit_step 8 ((crc % 256) ^^^ (b % 256)) ^^^ (crc / 256)

/-- Running several CRC-32C byte updates; an n-byte hardware instruction
(`__crc32cd`, `__crc32cw`, `__crc32ch`, `_mm_crc32_u64`, ...) on a
little-endian load is exactly the byte-sequential update over those bytes. -/
def crc32c_bytes (crc : Nat) (l : List Nat) : Nat := l.foldl crc32c_update crc

/-- The 8-bytes-at-a-time loop shared by both hardware paths
(lidar_protocol_cpp.cpp lines 44-49 and 81-86): consume 8 bytes per
`__crc32cd`/`_mm_crc32_u64` while at least 8 remain. -/
def crc32c_loop8 : Nat → List Nat → Nat × List Nat
  | crc, b0 :: b1 :: b2 :: b3 :: b4 :: b5 :: b6 :: b7 :: rest =>
      crc32c_loop8 (crc32c_bytes crc [b0, b1, b2, b3, b4, b5, b6, b7]) rest
  | crc, l => (crc, l)

/-- `LidarProtocol::crc32_hw_arm` (lidar_protocol_cpp.cpp lines 40-73): the
8-byte loop, then one 4-byte, one 2-byte and one final-byte step on the
remainder, each performed with the CRC-32C instructions. -/
def crc32_hw_arm (data : List Nat) : Nat :=
  let p8 := crc32c_loop8 0xFFFFFFFF data
  let p4 := if 4 ≤ p8.2.length then (crc32c_bytes p8.1 (p8.2.take 4), p8.2.drop 4) else p8
  let p2 := if 2 ≤ p4.2.length then (crc32c_bytes p4.1 (p4.2.take 2), p4.2.drop 2) else p4
  let p1 := crc32c_bytes p2.1 p2.2
  p1 ^^^ 0xFFFFFFFF

/-- The 4-bytes-at-a-time loop of the SSE4.2 path (lidar_protocol_cpp.cpp
lines 88-92). -/
def crc32c_loop4 : Nat → List Nat → Nat × List Nat
  | crc, b0 :: b1 :: b2 :: b3 :: rest =>
      crc32c_loop4 (crc32c_bytes crc [b0, b1, b2, b3]) rest
  | crc, l => (crc, l)

/-- `LidarProtocol::crc32_hw_sse42` (lidar_protocol_cpp.cpp lines 78-99):
8-byte loop, 4-byte loop, then byte loop, all with CRC-32C instructions. -/
def crc32_hw_sse42 (data : List Nat) : Nat :=
  let p8 := crc32c_loop8 0xFFFFFFFF data
  let p4 := crc32c_loop4 p8.1 p8.2
  crc32c_bytes p4.1 p4.2 ^^^ 0xFFFFFFFF

/-- The bytes of the IEEE 802.3 self-test vector "123456789"
(lidar_stream.cpp line 212). -/
def crcTestVector : List Nat := [49, 50, 51, 52, 53, 54, 55, 56, 57]

-- ===========================================================================
-- Wire codec: receiver LidarProtocol::parse_datagram
-- (lidar_protocol_cpp.cpp lines 119-248) and the sender's packet layout
-- (lidar_stream.cpp send_packet, lines 412-508)
-- ===========================================================================

/-- A parsed packet (lidar_protocol_cpp.hpp `ParsedPacket`).  Points keep the
raw 32-bit little-endian bit patterns of x, y, z plus the intensity byte:
the code transfers them with `memcpy`, never interpreting the float value. -/
structure ParsedPacket where
  device_ts_ns : Nat
  seq : Nat
  point_count : Nat
  sensor_id : Nat
  flags : Nat
  crc32 : Nat
  points : List (Nat × Nat × Nat × Nat)
  deriving DecidableEq, Repr

/-- Reasons `parse_datagram` rejects a buffer, in source order. -/
inductive ParseErr where
  | tooShort
  | badMagic
  | badVersion
  | invalidCount
  | lenMismatch
  | badCrc
  deriving DecidableEq, Repr

/-- Parse the point array: 13-byte records of three 4-byte floats and an
intensity byte (lidar_protocol_cpp.cpp lines 219-235). -/
def parsePoints : Nat → List Nat → List (Nat × Nat × Nat × Nat)
  | 0, _ => []
  | n + 1, payload =>
      (leVal (payload.take 4),
       leVal ((payload.drop 4).take 4),
       leVal ((payload.drop 8).take 4),
       leVal ((payload.drop 12).take 1)) :: parsePoints n (payload.drop 13)

/-- `LidarProtocol::parse_datagram` (lidar_protocol_cpp.cpp lines 119-248):
length, magic, version, point-count and total-length checks in that order,
then the optional CRC check (only when validation is enabled and the header
CRC field is nonzero: the CRC is recomputed over bytes [0..22] followed by
the payload). -/
def parse_datagram (validate_crc : Bool) (b : List Nat) :
    Except ParseErr ParsedPacket :=
  if b.length < HEADER_SIZE then .error .tooShort
  else if fieldAt b 0 4 ≠ LIDAR_MAGIC then .error .badMagic
  else if fieldAt b 4 1 ≠ LIDAR_VERSION then .error .badVersion
  else if fieldAt b 17 2 < 1 ∨ MAX_POINTS_PER_PACKET < fieldAt b 17 2 then
    .error .invalidCount
  else if b.length ≠ HEADER_SIZE + fieldAt b 17 2 * POINT_SIZE then
    .error .lenMismatch
  else if validate_crc = true ∧ fieldAt b 23 4 ≠ 0 ∧
      crc32_sw_zlib (b.take 23 ++ b.drop HEADER_SIZE) ≠ fieldAt b 23 4 then
    .error .badCrc
  else
    .ok { device_ts_ns := fieldAt b 5 8
          seq := fieldAt b 13 4
          point_count := fieldAt b 17 2
          sensor_id := fieldAt b 21 2
          flags := fieldAt b 19 2
          crc32 := fieldAt b 23 4
          points := parsePoints (fieldAt b 17 2) (b.drop HEADER_SIZE) }

/-- Wire bytes of one point, as the sender's packed `Point3D` lays them out
(lidar_stream.cpp lines 98-103, copied with memcpy at line 456). -/
def encodePoint (p : Nat × Nat × Nat × Nat) : List Nat :=
  leBytes 4 p.1 ++ leBytes 4 p.2.1 ++ leBytes 4 p.2.2.1 ++ leBytes 1 p.2.2.2

/-- Re-encode a parsed packet exactly as `send_packet` lays a datagram out
(lidar_stream.cpp lines 441-456): the packed 27-byte little-endian header
followed by the packed 13-byte points. -/
def encode_packet (r : ParsedPacket) : List Nat :=
  leBytes 4 LIDAR_MAGIC ++ leBytes 1 LIDAR_VERSION ++
  leBytes 8 r.device_ts_ns ++ leBytes 4 r.seq ++ leBytes 2 r.point_count ++
  leBytes 2 r.flags ++ leBytes 2 r.sensor_id ++ leBytes 4 r.crc32 ++
  (r.points.map encodePoint).flatten

/-- Bytes are in range. -/
def bytesValid (b : List Nat) : Prop := ∀ x ∈ b, x < 256

/-- Structural well-formedness of a datagram: the conditions of the claim
(magic, version, point count in [1,105], exact total length). -/
def structWellFormed (b : List Nat) : Prop :=
  HEADER_SIZE ≤ b.length ∧ fieldAt b 0 4 = LIDAR_MAGIC ∧
  fieldAt b 4 1 = LIDAR_VERSION ∧ 1 ≤ fieldAt b 17 2 ∧
  fieldAt b 17 2 ≤ MAX_POINTS_PER_PACKET ∧
  b.length = HEADER_SIZE + fieldAt b 17 2 * POINT_SIZE

instance (b : List Nat) : Decidable (bytesValid b) := by
  unfold bytesValid; infer_instance

instance (b : List Nat) : Decidable (structWellFormed b) := by
  unfold structWellFormed; infer_instance

-- ===========================================================================
-- Receiver statistics (lidar_protocol_cpp.hpp ProtocolStats, updated by
-- parse_datagram)
-- ===========================================================================

/-- `ProtocolStats` (lidar_protocol_cpp.hpp lines 42-58). -/
structure ProtocolStats where
  total_packets : Nat := 0
  valid_packets : Nat := 0
  crc_failures : Nat := 0
  bad_magic : Nat := 0
  bad_version : Nat := 0
  len_mismatch : Nat := 0
  invalid_count : Nat := 0
  deriving DecidableEq, Repr

/-- Which counter each outcome of `parse_datagram` bumps: a too-short buffer
and a total-length mismatch both land in `len_mismatch` (lidar_protocol_cpp.cpp
lines 128 and 173); the others have their own counter. -/
def statBump (s : ProtocolStats) : Except ParseErr ParsedPacket → ProtocolStats
  | .error .tooShort => { s with len_mismatch := s.len_mismatch + 1 }
  | .error .badMagic => { s with bad_magic := s.bad_magic + 1 }
  | .error .badVersion => { s with bad_version := s.bad_version + 1 }
  | .error .invalidCount => { s with invalid_count := s.invalid_count + 1 }
  | .error .lenMismatch => { s with len_mismatch := s.len_mismatch + 1 }
  | .error .badCrc => { s with crc_failures := s.crc_failures + 1 }
  | .ok _ => { s with valid_packets := s.valid_packets + 1 }

/-- One `parse_datagram` call with its statistics side effect:
`total_packets` is incremented on entry (line 124), then exactly one other
counter according to the outcome. -/
def parse_step (v : Bool) (s : ProtocolStats) (b : List Nat) :
    ProtocolStats × Option ParsedPacket :=
  let s1 : ProtocolStats := { s with total_packets := s.total_packets + 1 }
  let r := parse_datagram v b
  (statBump s1 r, r.toOption)

/-- Statistics after a sequence of `parse_datagram` calls. -/
def runParser (v : Bool) (s : ProtocolStats) (bs : List (List Nat)) :
    ProtocolStats :=
  bs.foldl (fun s b => (parse_step v s b).1) s

/-- Sum of the non-total counters. -/
def counterSum (s : ProtocolStats) : Nat :=
  s.valid_packets + s.bad_magic + s.bad_version + s.len_mismatch +
  s.invalid_count + s.crc_failures

instance {e a : Type} [DecidableEq e] [DecidableEq a] : DecidableEq (Except e a) := fun
  | .error x, .error y =>
      if h : x = y then isTrue (by rw [h]) else isFalse (fun hh => by cases hh; exact h rfl)
  | .error _, .ok _ => isFalse (fun hh => by cases hh)
  | .ok _, .error _ => isFalse (fun hh => by cases hh)
  | .ok x, .ok y =>
      if h : x = y then isTrue (by rw [h]) else isFalse (fun hh => by cases hh; exact h rfl)

-- ===========================================================================
-- Exact rational arithmetic standing for the sender's float computations
-- (unnormalized fraction representation so every operation reduces in the
-- kernel; only *, /, <, and the comparisons the filter needs are modelled)
-- ===========================================================================

/-- An exact fraction `num / den` with positive denominator, modelling the
real value a float computation would produce were it exact. -/
structure FQ where
  num : Int
  den : Nat := 1
  deriving DecidableEq, Repr

/-- Product of two fractions. -/
def FQ.mul (a b : FQ) : FQ := ⟨a.num * b.num, a.den * b.den⟩

/-- Sum of two fractions. -/
def FQ.add (a b : FQ) : FQ := ⟨a.num * b.den + b.num * a.den, a.den * b.den⟩

/-- Strict comparison by cross multiplication (denominators positive). -/
def FQ.lt (a b : FQ) : Prop := a.num * b.den < b.num * a.den

instance (a b : FQ) : Decidable (FQ.lt a b) := by unfold FQ.lt; infer_instance

/-- Division of a raw integer coordinate by 1000: the millimetre-to-metre
conversion `raw_points[i].x / 1000.0f` (lidar_stream.cpp lines 610-612). -/
def mmToM (x : Int) : FQ := ⟨x, 1000⟩

-- ===========================================================================
-- Sender filter and segmentation (lidar_stream.cpp PointCloudCallback lines
-- 560-692, send_packet lines 412-508, send_segmented lines 520-551)
-- ===========================================================================

/-- A raw Livox point: integer millimetre coordinates plus reflectivity
(the `LivoxLidarCartesianHighRawPoint` consumed at lines 596-632). -/
structure RawPoint where
  x : Int
  y : Int
  z : Int
  reflectivity : Nat
  deriving DecidableEq, Repr

/-- A filtered point as stored in the `filtered` buffer: metre coordinates
and intensity (lidar_stream.cpp lines 628-631). -/
structure SendPoint where
  x : FQ
  y : FQ
  z : FQ
  intensity : Nat
  deriving DecidableEq, Repr

/-- Convert a surviving raw point (lidar_stream.cpp lines 610-612, 628-631). -/
def convertPoint (p : RawPoint) : SendPoint :=
  ⟨mmToM p.x, mmToM p.y, mmToM p.z, p.reflectivity⟩

/-- The filter conditions of the callback loop, for the raw point at raw
index `i` (lidar_stream.cpp lines 603-625): not the (0,0,0) sentinel, the
squared metre range within `[min_range^2, max_range^2]`, and the index
divisible by the downsample factor when that factor exceeds 1. -/
def keepPoint (min_range max_range : FQ) (downsample : Int) (i : Nat)
    (p : RawPoint) : Prop :=
  ¬(p.x = 0 ∧ p.y = 0 ∧ p.z = 0) ∧
  (let x := mmToM p.x
   let y := mmToM p.y
   let z := mmToM p.z
   let d2 := (x.mul x).add ((y.mul y).add (z.mul z))
   ¬(d2.lt (min_range.mul min_range) ∨ (max_range.mul max_range).lt d2)) ∧
  ¬(1 < downsample ∧ (i : Int) % downsample ≠ 0)

instance (mn mx : FQ) (d : Int) (i : Nat) (p : RawPoint) :
    Decidable (keepPoint mn mx d i p) := by
  unfold keepPoint; infer_instance

/-- The callback's filter loop (lidar_stream.cpp lines 596-633): `i` is the
raw index, `count` the current fill level of the `filtered` buffer; a point
is skipped outright once the 2048-entry buffer is full. -/
def filterLoop (mn mx : FQ) (d : Int) : Nat → Nat → List RawPoint →
    List SendPoint
  | _, _, [] => []
  | i, count, p :: rest =>
      if 2048 ≤ count then filterLoop mn mx d (i + 1) count rest
      else if keepPoint mn mx d i p then
        convertPoint p :: filterLoop mn mx d (i + 1) (count + 1) rest
      else filterLoop mn mx d (i + 1) count rest

/-- The `filtered` buffer contents a sweep produces (lidar_stream.cpp lines
587-633). -/
def filterSweep (mn mx : FQ) (d : Int) (raw : List RawPoint) :
    List SendPoint :=
  filterLoop mn mx d 0 0 raw

/-- The filter-surviving subset of a sweep from raw index `i` on: exactly
the raw points passing `keepPoint`, in traversal order, converted to metres
(no buffer cap). -/
def survivorsFrom (mn mx : FQ) (d : Int) : Nat → List RawPoint →
    List SendPoint
  | _, [] => []
  | i, p :: rest =>
      if keepPoint mn mx d i p then
        convertPoint p :: survivorsFrom mn mx d (i + 1) rest
      else survivorsFrom mn mx d (i + 1) rest

/-- The filter-surviving subset of a whole sweep. -/
def survivors (mn mx : FQ) (d : Int) (raw : List RawPoint) :
    List SendPoint :=
  survivorsFrom mn mx d 0 raw

/-- One transmitted datagram at the segmentation level of abstraction:
device timestamp, sequence number and the point chunk (`send_packet` builds
exactly these into the header and payload, lidar_stream.cpp lines 441-456;
byte-level layout is the codec above). -/
structure Datagram where
  device_ts : Nat
  seq : Nat
  points : List SendPoint
  deriving DecidableEq, Repr

/-- `send_segmented` (lidar_stream.cpp lines 520-551) with every transmit
succeeding: slice the filtered buffer into chunks of at most
`MAX_POINTS_PER_PACKET` points; each chunk becomes one datagram carrying the
sweep's device timestamp; `send_packet` draws the sequence number from the
atomic counter with `fetch_add` wrapping at 2^32 (line 428).  Returns the
datagrams and the counter after the sweep. -/
def send_segmented (device_ts : Nat) (pts : List SendPoint) (seq : Nat) :
    List Datagram × Nat :=
  if h : pts = [] then ([], seq)
  else
    let batch := pts.take MAX_POINTS_PER_PACKET
    let rest := pts.drop MAX_POINTS_PER_PACKET
    let out := send_segmented device_ts rest ((seq + 1) % UINT32_MOD)
    (⟨device_ts, seq, batch⟩ :: out.1, out.2)
  termination_by pts.length
  decreasing_by
    simp [List.length_drop]
    have : pts.length ≠ 0 := fun hl => h (List.eq_nil_of_length_eq_zero hl)
    unfold MAX_POINTS_PER_PACKET
    omega

-- ===========================================================================
-- Sender timestamp selection (lidar_stream.cpp extract_livox_timestamp lines
-- 279-344 and update_ts_stats lines 349-362)
-- ===========================================================================

/-- The sender's timestamp-tracking state (lidar_stream.cpp lines 129-134),
plus a ghost counter of fallback warnings emitted (the `fprintf` at line
339). -/
structure TsState where
  ts_first_packet : Bool := true
  ts_last : Nat := 0
  ts_using_fallback : Bool := false
  warn_count : Nat := 0
  deriving DecidableEq, Repr

/-- `extract_livox_timestamp` (lidar_stream.cpp lines 279-344): accept the
device timestamp on the first packet, or when it strictly exceeds the last
adopted one with a delta below one second; on accept clear the fallback flag
and return it; otherwise emit the warning only if the fallback flag was
clear, set the flag, and return the host-clock fallback value. -/
def extract_livox_timestamp (st : TsState) (ts fallback_ts : Nat) :
    TsState × Nat :=
  let accept := st.ts_first_packet ∨
    (st.ts_last < ts ∧ ts - st.ts_last < 1000000000)
  let st1 : TsState :=
    if st.ts_first_packet then { st with ts_first_packet := false } else st
  if accept then ({ st1 with ts_using_fallback := false }, ts)
  else
    ({ st1 with ts_using_fallback := true
                warn_count :=
                  if st1.ts_using_fallback then st1.warn_count
                  else st1.warn_count + 1 },
     fallback_ts)

/-- One callback's timestamp handling: extract, then `update_ts_stats`
records the returned timestamp as `ts_last` (lidar_stream.cpp lines
582-584 and 361). -/
def tsCallbackStep (st : TsState) (ts fallback_ts : Nat) : TsState :=
  let r := extract_livox_timestamp st ts fallback_ts
  { r.1 with ts_last := r.2 }

/-- A whole session of callbacks, each bringing a device timestamp and the
host-clock fallback value current at that moment. -/
def tsRun (st : TsState) (inputs : List (Nat × Nat)) : TsState :=
  inputs.foldl (fun s i => tsCallbackStep s i.1 i.2) st

-- ===========================================================================
-- Frame builder (frame_builder_cpp.cpp, frame_builder_cpp.hpp)
-- ===========================================================================

/-- Metadata of one record appended to the current frame (ghost
instrumentation recording which records contributed points). -/
structure RecordMeta where
  ts : Int
  seq : Nat
  n : Nat
  deriving DecidableEq, Repr

/-- `FrameBuilderStats` (frame_builder_cpp.hpp lines 52-67). -/
structure FBStats where
  frames_built : Nat := 0
  packets_added : Nat := 0
  points_added : Nat := 0
  late_packets : Nat := 0
  seq_gaps : Nat := 0
  seq_reorders : Nat := 0
  overflow_frames : Nat := 0
  deriving DecidableEq, Repr

/-- A closed frame (frame_builder_cpp.hpp lines 27-46); `admitted` is the
ghost list of contributing records. -/
structure FBFrame (P : Type) where
  xyz_data : List P
  point_count : Nat
  start_ts_ns : Int
  end_ts_ns : Int
  seq_first : Nat
  seq_last : Nat
  pkt_count : Nat
  admitted : List RecordMeta
  deriving DecidableEq, Repr

/-- The `FrameBuilder` state (frame_builder_cpp.hpp lines 112-131): the
point type `P` is abstract because the builder only copies points.  The
flat float buffer and its fill level are modelled by the list
`point_buffer` (`current_point_count_` is its length; the dead capacity
beyond the fill level is never read).  `current_admitted` is ghost
instrumentation mirroring the appends. -/
structure FBState (P : Type) where
  frame_period_ns : Int
  max_frame_points : Nat
  stats : FBStats := {}
  point_buffer : List P := []
  current_frame_start_ts : Int := -1
  current_frame_end_ts : Int := -1
  current_seq_first : Nat := 0
  current_seq_last : Nat := 0
  current_pkt_count : Nat := 0
  last_seq : Option Nat := none
  current_admitted : List RecordMeta := []
  deriving DecidableEq, Repr

/-- The freshly constructed builder (frame_builder_cpp.cpp lines 74-90),
with the frame period already converted to nanoseconds. -/
def mkFrameBuilder (P : Type) (frame_period_ns : Int) (max_frame_points : Nat) :
    FBState P :=
  { frame_period_ns := frame_period_ns, max_frame_points := max_frame_points }

/-- `FrameBuilder::is_sequence_gap` (frame_builder_cpp.cpp lines 357-361):
the expected successor is `last_seq + 1` with uint32 wrap-around. -/
def is_sequence_gap (current_seq last_seq : Nat) : Prop :=
  current_seq ≠ (last_seq + 1) % UINT32_MOD ∧ last_seq < current_seq

instance (c l : Nat) : Decidable (is_sequence_gap c l) := by
  unfold is_sequence_gap; infer_instance

/-- `FrameBuilder::is_sequence_reorder` (frame_builder_cpp.cpp lines
363-366). -/
def is_sequence_reorder (current_seq last_seq : Nat) : Prop :=
  current_seq < last_seq ∧ last_seq - current_seq < 1000

instance (c l : Nat) : Decidable (is_sequence_reorder c l) := by
  unfold is_sequence_reorder; infer_instance

/-- `FrameBuilder::start_new_frame` (frame_builder_cpp.cpp lines 221-229). -/
def start_new_frame {P : Type} (st : FBState P) (device_ts_ns : Int)
    (seq : Nat) : FBState P :=
  { st with current_frame_start_ts := device_ts_ns
            current_frame_end_ts := device_ts_ns
            current_seq_first := seq
            current_seq_last := seq
            current_pkt_count := 0
            point_buffer := []
            current_admitted := [] }

/-- `FrameBuilder::add_to_current_frame` (frame_builder_cpp.cpp lines
231-303): sequence tracking first (even for records later dropped), then
the overflow check, then the append and metadata/statistics update. -/
def add_to_current_frame {P : Type} (st : FBState P) (device_ts_ns : Int)
    (pts : List P) (seq : Nat) : FBState P :=
  let st1 : FBState P :=
    match st.last_seq with
    | some l =>
        { st with stats :=
            { st.stats with
                seq_gaps :=
                  if is_sequence_gap seq l then st.stats.seq_gaps + 1
                  else st.stats.seq_gaps
                seq_reorders :=
                  if is_sequence_reorder seq l then st.stats.seq_reorders + 1
                  else st.stats.seq_reorders } }
    | none => st
  let st2 : FBState P := { st1 with last_seq := some seq }
  if st.max_frame_points < st.point_buffer.length + pts.length then
    { st2 with stats :=
        { st2.stats with overflow_frames := st2.stats.overflow_frames + 1 } }
  else
    { st2 with point_buffer := st.point_buffer ++ pts
               current_frame_end_ts := device_ts_ns
               current_seq_last := seq
               current_pkt_count := st.current_pkt_count + 1
               stats := { st2.stats with
                            packets_added := st2.stats.packets_added + 1
                            points_added := st2.stats.points_added + pts.length }
               current_admitted :=
                 st.current_admitted ++ [⟨device_ts_ns, seq, pts.length⟩] }

/-- `FrameBuilder::close_current_frame` (frame_builder_cpp.cpp lines
305-354): an empty frame is not closed; otherwise the accumulated buffer
and metadata become a `Frame`, `frames_built` is incremented, and the fill
level and start timestamp are reset. -/
def close_current_frame {P : Type} (st : FBState P) :
    FBState P × Option (FBFrame P) :=
  if st.point_buffer.length = 0 then (st, none)
  else
    ({ st with point_buffer := []
               current_frame_start_ts := -1
               current_admitted := []
               stats := { st.stats with
                            frames_built := st.stats.frames_built + 1 } },
     some { xyz_data := st.point_buffer
            point_count := st.point_buffer.length
            start_ts_ns := st.current_frame_start_ts
            end_ts_ns := st.current_frame_end_ts
            seq_first := st.current_seq_first
            seq_last := st.current_seq_last
            pkt_count := st.current_pkt_count
            admitted := st.current_admitted })

/-- `FrameBuilder::add_packet` (frame_builder_cpp.cpp lines 92-139). -/
def add_packet {P : Type} (st : FBState P) (device_ts_ns : Int)
    (pts : List P) (seq : Nat) : FBState P × Option (FBFrame P) :=
  let st := if st.current_frame_start_ts < 0 then
    start_new_frame st device_ts_ns seq else st
  if device_ts_ns < st.current_frame_start_ts then
    ({ st with stats :=
         { st.stats with late_packets := st.stats.late_packets + 1 } }, none)
  else if st.current_frame_start_ts + st.frame_period_ns ≤ device_ts_ns then
    let closed := close_current_frame st
    let st2 := start_new_frame closed.1 device_ts_ns seq
    (add_to_current_frame st2 device_ts_ns pts seq, closed.2)
  else
    (add_to_current_frame st device_ts_ns pts seq, none)

/-- `FrameBuilder::flush` (frame_builder_cpp.cpp lines 141-153). -/
def fbFlush {P : Type} (st : FBState P) : FBState P × Option (FBFrame P) :=
  if st.current_frame_start_ts < 0 then (st, none)
  else close_current_frame st

/-- Run a list of `add_packet` calls, collecting the emitted frames in
order. -/
def runAdds {P : Type} (st : FBState P) :
    List (Int × List P × Nat) → FBState P × List (FBFrame P)
  | [] => (st, [])
  | r :: rest =>
      let out := add_packet st r.1 r.2.1 r.2.2
      let next := runAdds out.1 rest
      (next.1, (out.2.elim [] fun F => [F]) ++ next.2)

-- ===========================================================================
-- Generic byte-string lemmas
-- ===========================================================================

lemma leVal_cons (a : Nat) (t : List Nat) : leVal (a :: t) = a + 256 * leVal t := rfl

lemma leBytes_leVal : ∀ (l : List Nat), (∀ x ∈ l, x < 256) →
    leBytes l.length (leVal l) = l
  | [], _ => rfl
  | a :: t, h => by
      have ha : a < 256 := h a (List.mem_cons_self a t)
      have ih := leBytes_leVal t (fun x hx => h x (List.mem_cons_of_mem a hx))
      have hmod : (a + 256 * leVal t) % 256 = a := by
        rw [Nat.add_mul_mod_self_left, Nat.mod_eq_of_lt ha]
      have hdiv : (a + 256 * leVal t) / 256 = leVal t := by
        rw [Nat.add_mul_div_left a (leVal t) (by norm_num),
            Nat.div_eq_of_lt ha, Nat.zero_add]
      simp only [List.length_cons, leBytes, leVal_cons, hmod, hdiv, ih]

lemma fieldAt_roundtrip (b : List Nat) (off len : Nat) (hb : bytesValid b)
    (h : off + len ≤ b.length) :
    leBytes len (fieldAt b off len) = (b.drop off).take len := by
  have hl : ((b.drop off).take len).length = len := by
    simp only [List.length_take, List.length_drop]
    omega
  have hmem : ∀ x ∈ (b.drop off).take len, x < 256 := fun x hx =>
    hb x (List.mem_of_mem_drop (List.mem_of_mem_take hx))
  have := leBytes_leVal ((b.drop off).take len) hmem
  rw [hl] at this
  exact this

lemma take_drop_glue (l : List Nat) (m k : Nat) :
    (l.drop m).take k ++ l.drop (m + k) = l.drop m := by
  conv_rhs => rw [← List.take_append_drop k (l.drop m)]
  rw [List.drop_drop]

lemma take_take_glue (l : List Nat) (m k : Nat) :
    l.take m ++ (l.drop m).take k = l.take (m + k) :=
  (List.take_add l m k).symm

lemma slice_glue (l : List Nat) (m j k : Nat) :
    (l.drop m).take j ++ (l.drop (m + j)).take k = (l.drop m).take (j + k) := by
  rw [← List.drop_drop, ← List.take_add]

-- ===========================================================================
-- C1: codec round-trip
-- ===========================================================================

lemma parsePoints_encode : ∀ (n : Nat) (l : List Nat), (∀ x ∈ l, x < 256) →
    l.length = 13 * n → ((parsePoints n l).map encodePoint).flatten = l
  | 0, l, _, hlen => by
      have : l = [] := List.eq_nil_of_length_eq_zero (by omega)
      simp [this, parsePoints]
  | n + 1, l, hb, hlen => by
      have hb13 : ∀ x ∈ l.drop 13, x < 256 := fun x hx =>
        hb x (List.mem_of_mem_drop hx)
      have hlen13 : (l.drop 13).length = 13 * n := by
        simp only [List.length_drop]; omega
      have ih := parsePoints_encode n (l.drop 13) hb13 hlen13
      have hbv : bytesValid l := hb
      have s0 : leBytes 4 (leVal (l.take 4)) = l.take 4 := by
        have := fieldAt_roundtrip l 0 4 hbv (by omega)
        simpa [fieldAt] using this
      have s4 : leBytes 4 (leVal ((l.drop 4).take 4)) = (l.drop 4).take 4 :=
        fieldAt_roundtrip l 4 4 hbv (by omega)
      have s8 : leBytes 4 (leVal ((l.drop 8).take 4)) = (l.drop 8).take 4 :=
        fieldAt_roundtrip l 8 4 hbv (by omega)
      have s12 : leBytes 1 (leVal ((l.drop 12).take 1)) = (l.drop 12).take 1 :=
        fieldAt_roundtrip l 12 1 hbv (by omega)
      simp only [parsePoints, List.map_cons, List.flatten_cons, encodePoint, s0,
        s4, s8, s12, ih, List.append_assoc]
      rw [show (13 : Nat) = 12 + 1 from rfl, take_drop_glue l 12 1,
          show (12 : Nat) = 8 + 4 from rfl, take_drop_glue l 8 4,
          show (8 : Nat) = 4 + 4 from rfl, take_drop_glue l 4 4,
          List.take_append_drop]

/-- Claim C1: for every well-formed datagram (magic, version, point count in
[1,105], exact total length, byte values in range), decoding with
`parse_datagram` succeeds and re-encoding the decoded header fields and
points with the sender's packed little-endian layout reproduces the
datagram byte for byte. -/
theorem encode_decode_roundtrip (b : List Nat) (hb : bytesValid b)
    (hwf : structWellFormed b) :
    Except.map encode_packet (parse_datagram false b) = Except.ok b := by
  obtain ⟨hlen, hmag, hver, hpc1, hpc2, hexact⟩ := hwf
  simp only [HEADER_SIZE, POINT_SIZE, MAX_POINTS_PER_PACKET] at hlen hpc2 hexact
  unfold parse_datagram
  rw [if_neg (by rw [HEADER_SIZE]; omega),
      if_neg (by simp [hmag]),
      if_neg (by simp [hver]),
      if_neg (by rw [MAX_POINTS_PER_PACKET]; omega),
      if_neg (by rw [HEADER_SIZE, POINT_SIZE]; omega),
      if_neg (by simp)]
  simp only [Except.map, Except.ok.injEq]
  unfold encode_packet
  have e0 : leBytes 4 LIDAR_MAGIC = b.take 4 := by
    rw [← hmag]
    have := fieldAt_roundtrip b 0 4 hb (by omega)
    simpa [fieldAt] using this
  have e4 : leBytes 1 LIDAR_VERSION = (b.drop 4).take 1 := by
    rw [← hver]
    exact fieldAt_roundtrip b 4 1 hb (by omega)
  have e5 : leBytes 8 (fieldAt b 5 8) = (b.drop 5).take 8 :=
    fieldAt_roundtrip b 5 8 hb (by omega)
  have e13 : leBytes 4 (fieldAt b 13 4) = (b.drop 13).take 4 :=
    fieldAt_roundtrip b 13 4 hb (by omega)
  have e17 : leBytes 2 (fieldAt b 17 2) = (b.drop 17).take 2 :=
    fieldAt_roundtrip b 17 2 hb (by omega)
  have e19 : leBytes 2 (fieldAt b 19 2) = (b.drop 19).take 2 :=
    fieldAt_roundtrip b 19 2 hb (by omega)
  have e21 : leBytes 2 (fieldAt b 21 2) = (b.drop 21).take 2 :=
    fieldAt_roundtrip b 21 2 hb (by omega)
  have e23 : leBytes 4 (fieldAt b 23 4) = (b.drop 23).take 4 :=
    fieldAt_roundtrip b 23 4 hb (by omega)
  have epay : ((parsePoints (fieldAt b 17 2) (b.drop HEADER_SIZE)).map
      encodePoint).flatten = b.drop 27 := by
    rw [HEADER_SIZE]
    refine parsePoints_encode _ _ (fun x hx => hb x (List.mem_of_mem_drop hx)) ?_
    simp only [List.length_drop]
    omega
  simp only [e0, e4, e5, e13, e17, e19, e21, e23, epay, List.append_assoc]
  rw [show (27 : Nat) = 23 + 4 from rfl, take_drop_glue b 23 4,
      show (23 : Nat) = 21 + 2 from rfl, take_drop_glue b 21 2,
      show (21 : Nat) = 19 + 2 from rfl, take_drop_glue b 19 2,
      show (19 : Nat) = 17 + 2 from rfl, take_drop_glue b 17 2,
      show (17 : Nat) = 13 + 4 from rfl, take_drop_glue b 13 4,
      show (13 : Nat) = 5 + 8 from rfl, take_drop_glue b 5 8,
      show (5 : Nat) = 4 + 1 from rfl, take_drop_glue b 4 1,
      List.take_append_drop]

/-- A concrete well-formed 40-byte datagram with one point and a zero CRC
field. -/
def wfExample : List Nat :=
  [0x52, 0x56, 0x49, 0x4C, 1,
   0, 0, 0, 0, 0, 0, 0, 0,
   0, 0, 0, 0,
   1, 0,
   0, 0,
   0, 0,
   0, 0, 0, 0,
   1, 2, 3, 4, 5, 6, 7, 8, 9, 10, 11, 12, 77]

/-- Witness for C1 at a concrete datagram. -/
theorem encode_decode_roundtrip_witness :
    bytesValid wfExample ∧ structWellFormed wfExample ∧
    Except.map encode_packet (parse_datagram false wfExample) =
      Except.ok wfExample :=
  ⟨by decide, by decide,
   encode_decode_roundtrip wfExample (by decide) (by decide)⟩

-- ===========================================================================
-- C2: rejection order of parse_datagram
-- ===========================================================================

/-- Claim C2: `parse_datagram` rejects by checking, in this order: buffer
shorter than 27 bytes; wrong magic; wrong version; point count outside
[1,105] (0 and 106 both fail); total length different from
27 + 13·point_count; and, only when validation is enabled and the header
CRC field is nonzero, a mismatch with the CRC recomputed over bytes [0..22]
and the payload.  A structurally valid datagram with a zero CRC field is
accepted in every validation mode. -/
theorem parse_rejection_order (v : Bool) (b : List Nat) :
    (parse_datagram v b = .error .tooShort ↔ b.length < 27) ∧
    (parse_datagram v b = .error .badMagic ↔
      27 ≤ b.length ∧ fieldAt b 0 4 ≠ LIDAR_MAGIC) ∧
    (parse_datagram v b = .error .badVersion ↔
      27 ≤ b.length ∧ fieldAt b 0 4 = LIDAR_MAGIC ∧
      fieldAt b 4 1 ≠ LIDAR_VERSION) ∧
    (parse_datagram v b = .error .invalidCount ↔
      27 ≤ b.length ∧ fieldAt b 0 4 = LIDAR_MAGIC ∧
      fieldAt b 4 1 = LIDAR_VERSION ∧
      (fieldAt b 17 2 = 0 ∨ 105 < fieldAt b 17 2)) ∧
    (parse_datagram v b = .error .lenMismatch ↔
      27 ≤ b.length ∧ fieldAt b 0 4 = LIDAR_MAGIC ∧
      fieldAt b 4 1 = LIDAR_VERSION ∧
      1 ≤ fieldAt b 17 2 ∧ fieldAt b 17 2 ≤ 105 ∧
      b.length ≠ 27 + fieldAt b 17 2 * 13) ∧
    (parse_datagram v b = .error .badCrc ↔
      structWellFormed b ∧ v = true ∧ fieldAt b 23 4 ≠ 0 ∧
      crc32_sw_zlib (b.take 23 ++ b.drop 27) ≠ fieldAt b 23 4) ∧
    (structWellFormed b ∧ fieldAt b 23 4 = 0 →
      ∃ r, parse_datagram v b = .ok r) := by
  unfold parse_datagram structWellFormed
  simp only [HEADER_SIZE, POINT_SIZE, MAX_POINTS_PER_PACKET, LIDAR_VERSION]
  split_ifs with h1 h2 h3 h4 h5 h6 <;>
    simp_all <;>
    omega

/-- Witness for C2 at concrete buffers: the empty buffer is rejected as too
short, and the concrete well-formed zero-CRC datagram is accepted under
full validation. -/
theorem parse_rejection_order_witness :
    parse_datagram true ([] : List Nat) = .error .tooShort ∧
    ∃ r, parse_datagram true wfExample = .ok r :=
  ⟨(parse_rejection_order true []).1.mpr (by decide),
   (parse_rejection_order true wfExample).2.2.2.2.2.2 ⟨by decide, by decide⟩⟩

-- ===========================================================================
-- C10: receiver statistics accounting
-- ===========================================================================

lemma parse_step_counts (v : Bool) (s : ProtocolStats) (b : List Nat) :
    (parse_step v s b).1.total_packets = s.total_packets + 1 ∧
    counterSum (parse_step v s b).1 = counterSum s + 1 ∧
    s.valid_packets ≤ (parse_step v s b).1.valid_packets ∧
    s.bad_magic ≤ (parse_step v s b).1.bad_magic ∧
    s.bad_version ≤ (parse_step v s b).1.bad_version ∧
    s.len_mismatch ≤ (parse_step v s b).1.len_mismatch ∧
    s.invalid_count ≤ (parse_step v s b).1.invalid_count ∧
    s.crc_failures ≤ (parse_step v s b).1.crc_failures := by
  unfold parse_step
  rcases parse_datagram v b with e | r
  · cases e <;> simp [statBump, counterSum] <;> omega
  · simp [statBump, counterSum]
    omega

lemma runParser_counts (v : Bool) : ∀ (bs : List (List Nat))
    (s : ProtocolStats),
    (runParser v s bs).total_packets = s.total_packets + bs.length ∧
    counterSum (runParser v s bs) = counterSum s + bs.length
  | [], s => by simp [runParser]
  | b :: rest, s => by
      have hstep := parse_step_counts v s b
      have ih := runParser_counts v rest (parse_step v s b).1
      simp only [runParser, List.foldl_cons] at ih ⊢
      rw [ih.1, ih.2, hstep.1, hstep.2.1, List.length_cons]
      omega

/-- Claim C10: after any sequence of `parse_datagram` calls starting from
zeroed statistics, `total_packets` equals the sum of the six outcome
counters; each call increments `total_packets` by one and exactly one of
the six outcome counters (their sum grows by one and each is
non-decreasing); a buffer shorter than 27 bytes is counted under
`len_mismatch`. -/
theorem protocol_stats_accounting (v : Bool) (s : ProtocolStats)
    (b : List Nat) (bs : List (List Nat)) :
    ((runParser v {} bs).total_packets = counterSum (runParser v {} bs)) ∧
    ((parse_step v s b).1.total_packets = s.total_packets + 1) ∧
    (counterSum (parse_step v s b).1 = counterSum s + 1) ∧
    (s.valid_packets ≤ (parse_step v s b).1.valid_packets) ∧
    (s.bad_magic ≤ (parse_step v s b).1.bad_magic) ∧
    (s.bad_version ≤ (parse_step v s b).1.bad_version) ∧
    (s.len_mismatch ≤ (parse_step v s b).1.len_mismatch) ∧
    (s.invalid_count ≤ (parse_step v s b).1.invalid_count) ∧
    (s.crc_failures ≤ (parse_step v s b).1.crc_failures) ∧
    (b.length < 27 →
      (parse_step v s b).1.len_mismatch = s.len_mismatch + 1) := by
  have hrun := runParser_counts v bs ({} : ProtocolStats)
  have hstep := parse_step_counts v s b
  refine ⟨?_, hstep.1, hstep.2.1, hstep.2.2.1, hstep.2.2.2.1,
    hstep.2.2.2.2.1, hstep.2.2.2.2.2.1, hstep.2.2.2.2.2.2.1,
    hstep.2.2.2.2.2.2.2, ?_⟩
  · rw [hrun.1, hrun.2]
    simp [counterSum]
  · intro hshort
    have hps : parse_datagram v b = .error .tooShort := by
      unfold parse_datagram
      rw [if_pos (show b.length < HEADER_SIZE from by rw [HEADER_SIZE]; omega)]
    unfold parse_step
    rw [hps]
    simp [statBump]

/-- Witness for C10 at a concrete short buffer and call sequence. -/
theorem protocol_stats_accounting_witness :
    ([0, 1, 2] : List Nat).length < 27 ∧
    (parse_step true {} [0, 1, 2]).1.len_mismatch = (0 : Nat) + 1 :=
  ⟨by decide,
   (protocol_stats_accounting true {} [0, 1, 2] []).2.2.2.2.2.2.2.2.2
     (by decide)⟩

-- ===========================================================================
-- C6: the CRC-32 engines
-- ===========================================================================

set_option maxRecDepth 10000 in
/-- Claim C6: on the IEEE 802.3 self-test vector "123456789" the software
CRC-32 paths (the sender's table implementation and zlib) produce the
specified 0xCBF43926, but the hardware-accelerated paths `crc32_hw_arm` and
`crc32_hw_sse42` produce 0xE3069283, the CRC-32C (Castagnoli) check value:
the ARM `__crc32c*` and SSE4.2 `_mm_crc32_*` instructions they are built on
implement the 0x1EDC6F41 polynomial, not the IEEE 802.3 one, so
`crc32_ieee` does not compute IEEE CRC-32 when either hardware path is
compiled in. -/
theorem crc32_hw_paths_are_castagnoli :
    crc32_calculate crcTestVector = 0xCBF43926 ∧
    crc32_sw_zlib crcTestVector = 0xCBF43926 ∧
    crc32_hw_arm crcTestVector = 0xE3069283 ∧
    crc32_hw_sse42 crcTestVector = 0xE3069283 ∧
    crc32_hw_arm crcTestVector ≠ crc32_sw_zlib crcTestVector ∧
    crc32_hw_sse42 crcTestVector ≠ crc32_sw_zlib crcTestVector := by
  refine ⟨by decide, by decide, by decide, by decide, by decide, by decide⟩

-- ===========================================================================
-- C7: timestamp fallback is not sticky
-- ===========================================================================

/-- A session trace: device timestamps 100, 50, 1500, 100 with host-clock
fallback values 10, 1000, 2000, 3000. -/
def tsTrace : List (Nat × Nat) := [(100, 10), (50, 1000), (1500, 2000), (100, 3000)]

/-- Counterexample to claim C7 as stated: after the second callback the
fallback mode is active, after the third it is inactive again (the mode
change is not sticky), and over the four callbacks the fallback warning is
emitted twice (once per entry into fallback, not once per session). -/
theorem ts_fallback_not_sticky :
    (tsRun {} (tsTrace.take 2)).ts_using_fallback = true ∧
    (tsRun {} (tsTrace.take 3)).ts_using_fallback = false ∧
    (tsRun {} tsTrace).warn_count = 2 := by
  refine ⟨by decide, by decide, by decide⟩

/-- Claim C7 as amended: the fallback warning is emitted on a callback
exactly when that callback switches the mode from device time to fallback,
so it is emitted at most once per contiguous fallback episode; the fallback
flag is cleared again as soon as a device timestamp is accepted. -/
theorem ts_warning_iff_fallback_transition (st : TsState) (ts fallback_ts : Nat) :
    ((tsCallbackStep st ts fallback_ts).warn_count =
      st.warn_count +
        (if st.ts_using_fallback = false ∧
            (tsCallbackStep st ts fallback_ts).ts_using_fallback = true
         then 1 else 0)) ∧
    ((tsCallbackStep st ts fallback_ts).ts_using_fallback = false ↔
      st.ts_first_packet = true ∨
      (st.ts_last < ts ∧ ts - st.ts_last < 1000000000)) := by
  unfold tsCallbackStep extract_livox_timestamp
  by_cases hf : st.ts_first_packet
  all_goals by_cases hacc : st.ts_last < ts ∧ ts - st.ts_last < 1000000000
  all_goals by_cases hfb : st.ts_using_fallback
  all_goals simp [hf, hacc, hfb]

/-- Witness for C7 (amended) at a concrete rejecting step. -/
theorem ts_warning_iff_fallback_transition_witness :
    (tsCallbackStep { ts_first_packet := false, ts_last := 100 } 50 777).warn_count =
      0 + (if (false = false) ∧
        (tsCallbackStep { ts_first_packet := false, ts_last := 100 } 50 777).ts_using_fallback = true
        then 1 else 0) :=
  (ts_warning_iff_fallback_transition
    { ts_first_packet := false, ts_last := 100 } 50 777).1

-- ===========================================================================
-- Frame builder helper lemmas
-- ===========================================================================

lemma atcf_proj {P : Type} (st : FBState P) (ts : Int) (pts : List P)
    (seq : Nat) :
    (add_to_current_frame st ts pts seq).current_frame_start_ts =
      st.current_frame_start_ts ∧
    (add_to_current_frame st ts pts seq).current_seq_first =
      st.current_seq_first ∧
    (add_to_current_frame st ts pts seq).frame_period_ns =
      st.frame_period_ns ∧
    (add_to_current_frame st ts pts seq).max_frame_points =
      st.max_frame_points ∧
    (add_to_current_frame st ts pts seq).last_seq = some seq ∧
    (add_to_current_frame st ts pts seq).stats.late_packets =
      st.stats.late_packets ∧
    (add_to_current_frame st ts pts seq).stats.frames_built =
      st.stats.frames_built := by
  unfold add_to_current_frame
  rcases hls : st.last_seq with _ | l <;> simp only [hls] <;>
    split_ifs <;> simp

lemma atcf_append {P : Type} (st : FBState P) (ts : Int) (pts : List P)
    (seq : Nat)
    (h : st.point_buffer.length + pts.length ≤ st.max_frame_points) :
    (add_to_current_frame st ts pts seq).point_buffer =
      st.point_buffer ++ pts ∧
    (add_to_current_frame st ts pts seq).current_frame_end_ts = ts ∧
    (add_to_current_frame st ts pts seq).current_seq_last = seq ∧
    (add_to_current_frame st ts pts seq).current_pkt_count =
      st.current_pkt_count + 1 ∧
    (add_to_current_frame st ts pts seq).current_admitted =
      st.current_admitted ++ [⟨ts, seq, pts.length⟩] := by
  unfold add_to_current_frame
  rcases hls : st.last_seq with _ | l <;> simp only [hls] <;>
    rw [if_neg (by omega)] <;> simp

lemma atcf_overflow {P : Type} (st : FBState P) (ts : Int) (pts : List P)
    (seq : Nat)
    (h : st.max_frame_points < st.point_buffer.length + pts.length) :
    (add_to_current_frame st ts pts seq).point_buffer = st.point_buffer ∧
    (add_to_current_frame st ts pts seq).current_frame_end_ts =
      st.current_frame_end_ts ∧
    (add_to_current_frame st ts pts seq).current_seq_last =
      st.current_seq_last ∧
    (add_to_current_frame st ts pts seq).current_pkt_count =
      st.current_pkt_count ∧
    (add_to_current_frame st ts pts seq).current_admitted =
      st.current_admitted ∧
    (add_to_current_frame st ts pts seq).stats.overflow_frames =
      st.stats.overflow_frames + 1 ∧
    (add_to_current_frame st ts pts seq).stats.packets_added =
      st.stats.packets_added ∧
    (add_to_current_frame st ts pts seq).stats.points_added =
      st.stats.points_added := by
  unfold add_to_current_frame
  rcases hls : st.last_seq with _ | l <;> simp only [hls] <;>
    rw [if_pos (by omega)] <;> simp

-- ===========================================================================
-- C9: sequence gap / reorder counting
-- ===========================================================================

lemma is_sequence_gap_iff (c l : Nat) (hc : c < UINT32_MOD)
    (hl : l < UINT32_MOD) : is_sequence_gap c l ↔ l + 1 < c := by
  unfold is_sequence_gap
  simp only [UINT32_MOD] at hc hl ⊢
  rcases Nat.lt_or_ge (l + 1) 4294967296 with h | h
  · rw [Nat.mod_eq_of_lt h]
    omega
  · have he : l + 1 = 4294967296 := by omega
    rw [he, Nat.mod_self]
    omega

/-- Claim C9: for a record reaching sequence tracking while `last_seq = l`
(with both sequence numbers being 32-bit values), the gap counter is
incremented exactly when `seq > l + 1` and the reorder counter exactly when
`seq < l` with `l - seq < 1000`. -/
theorem seq_gap_reorder_counting {P : Type} (st : FBState P) (ts : Int)
    (pts : List P) (seq l : Nat) (hls : st.last_seq = some l)
    (hl : l < UINT32_MOD) (hseq : seq < UINT32_MOD) :
    ((add_to_current_frame st ts pts seq).stats.seq_gaps =
      st.stats.seq_gaps + if l + 1 < seq then 1 else 0) ∧
    ((add_to_current_frame st ts pts seq).stats.seq_reorders =
      st.stats.seq_reorders + if seq < l ∧ l - seq < 1000 then 1 else 0) := by
  have hgap := is_sequence_gap_iff seq l hseq hl
  have e1 : (if l + 1 < seq then 1 else 0) =
      (if is_sequence_gap seq l then 1 else 0) := by
    simp [hgap]
  have e2 : (if seq < l ∧ l - seq < 1000 then 1 else 0) =
      (if is_sequence_reorder seq l then 1 else 0) := by
    simp [is_sequence_reorder]
  rw [e1, e2]
  unfold add_to_current_frame
  simp only [hls]
  split_ifs <;> simp_all

/-- Witness for C9 at concrete sequence numbers 5 → 9 (a gap of 3). -/
theorem seq_gap_reorder_counting_witness :
    ({ frame_period_ns := 100, max_frame_points := 10,
       last_seq := some 5 } : FBState Nat).last_seq = some 5 ∧
    5 < UINT32_MOD ∧ 9 < UINT32_MOD ∧
    (add_to_current_frame
      ({ frame_period_ns := 100, max_frame_points := 10,
         last_seq := some 5 } : FBState Nat) 0 [] 9).stats.seq_gaps =
      ({ frame_period_ns := 100, max_frame_points := 10,
         last_seq := some 5 } : FBState Nat).stats.seq_gaps +
        if 5 + 1 < 9 then 1 else 0 :=
  ⟨rfl, by decide, by decide,
   (seq_gap_reorder_counting
     ({ frame_period_ns := 100, max_frame_points := 10,
        last_seq := some 5 } : FBState Nat) 0 [] 9 5 rfl (by decide)
     (by decide)).1⟩

lemma close_proj {P : Type} (st : FBState P) :
    (close_current_frame st).1.frame_period_ns = st.frame_period_ns ∧
    (close_current_frame st).1.max_frame_points = st.max_frame_points ∧
    (close_current_frame st).1.last_seq = st.last_seq := by
  unfold close_current_frame
  split_ifs <;> simp

-- ===========================================================================
-- C4: add_packet case behaviour
-- ===========================================================================

/-- Counterexample to claim C4 as stated: a frame is open (it was opened by
a record whose points overflowed the capacity, so it holds no points) and
the next record arrives past the window end; the claim says the current
frame is closed and returned, but `add_packet` returns nothing (the empty
frame is silently discarded). -/
theorem add_packet_empty_rollover_counterexample :
    ((add_packet (mkFrameBuilder Nat 100 5) 0 (List.replicate 10 0) 0).1
      ).current_frame_start_ts = 0 ∧
    ((add_packet (mkFrameBuilder Nat 100 5) 0 (List.replicate 10 0) 0).1
      ).current_frame_start_ts +
      ((add_packet (mkFrameBuilder Nat 100 5) 0 (List.replicate 10 0) 0).1
        ).frame_period_ns ≤ 100 ∧
    (add_packet
      (add_packet (mkFrameBuilder Nat 100 5) 0 (List.replicate 10 0) 0).1
      100 [7] 1).2 = none := by
  refine ⟨by decide, by decide, by decide⟩

/-- Claim C4 as amended: on `add(record)`, (a) with no frame open, a frame
is opened seeded with the record's timestamp and sequence number and the
record is appended to it (subject to the capacity rule); (b) a record with
`ts < start_ts` is dropped, `late_packets` incremented, nothing returned;
(c) a record with `start_ts ≤ ts < start_ts + frame_period` is appended to
the current frame with `end_ts`, `seq_last`, `pkt_count` updated, subject
to the capacity rule; (d) a record with `ts ≥ start_ts + frame_period`
closes the current frame, which is returned provided it holds at least one
point (an empty frame yields nothing), opens a new frame seeded with this
record, and appends the record to it subject to the capacity rule. -/
theorem add_packet_case_behavior {P : Type} (st : FBState P) (ts : Int)
    (pts : List P) (seq : Nat) :
    (st.current_frame_start_ts < 0 → 0 < st.frame_period_ns →
      pts.length ≤ st.max_frame_points →
      (add_packet st ts pts seq).2 = none ∧
      (add_packet st ts pts seq).1.current_frame_start_ts = ts ∧
      (add_packet st ts pts seq).1.current_frame_end_ts = ts ∧
      (add_packet st ts pts seq).1.current_seq_first = seq ∧
      (add_packet st ts pts seq).1.current_seq_last = seq ∧
      (add_packet st ts pts seq).1.point_buffer = pts ∧
      (add_packet st ts pts seq).1.current_pkt_count = 1) ∧
    (0 ≤ st.current_frame_start_ts → ts < st.current_frame_start_ts →
      (add_packet st ts pts seq).2 = none ∧
      (add_packet st ts pts seq).1 =
        { st with stats :=
            { st.stats with late_packets := st.stats.late_packets + 1 } }) ∧
    (0 ≤ st.current_frame_start_ts → st.current_frame_start_ts ≤ ts →
      ts < st.current_frame_start_ts + st.frame_period_ns →
      (add_packet st ts pts seq).2 = none ∧
      (add_packet st ts pts seq).1 = add_to_current_frame st ts pts seq ∧
      (st.point_buffer.length + pts.length ≤ st.max_frame_points →
        (add_packet st ts pts seq).1.point_buffer =
          st.point_buffer ++ pts ∧
        (add_packet st ts pts seq).1.current_frame_end_ts = ts ∧
        (add_packet st ts pts seq).1.current_seq_last = seq ∧
        (add_packet st ts pts seq).1.current_pkt_count =
          st.current_pkt_count + 1 ∧
        (add_packet st ts pts seq).1.current_frame_start_ts =
          st.current_frame_start_ts ∧
        (add_packet st ts pts seq).1.current_seq_first =
          st.current_seq_first)) ∧
    (0 ≤ st.current_frame_start_ts → 0 < st.frame_period_ns →
      st.current_frame_start_ts + st.frame_period_ns ≤ ts →
      ((st.point_buffer ≠ [] →
        (add_packet st ts pts seq).2 = some
          { xyz_data := st.point_buffer
            point_count := st.point_buffer.length
            start_ts_ns := st.current_frame_start_ts
            end_ts_ns := st.current_frame_end_ts
            seq_first := st.current_seq_first
            seq_last := st.current_seq_last
            pkt_count := st.current_pkt_count
            admitted := st.current_admitted }) ∧
      (st.point_buffer = [] → (add_packet st ts pts seq).2 = none) ∧
      (add_packet st ts pts seq).1.current_frame_start_ts = ts ∧
      (add_packet st ts pts seq).1.current_seq_first = seq ∧
      (pts.length ≤ st.max_frame_points →
        (add_packet st ts pts seq).1.point_buffer = pts ∧
        (add_packet st ts pts seq).1.current_frame_end_ts = ts ∧
        (add_packet st ts pts seq).1.current_seq_last = seq ∧
        (add_packet st ts pts seq).1.current_pkt_count = 1))) := by
  refine ⟨?_, ?_, ?_, ?_⟩
  · intro hneg hper hcap
    unfold add_packet
    rw [if_pos hneg,
        if_neg (show ¬ts < (start_new_frame st ts seq).current_frame_start_ts
          from by simp [start_new_frame]),
        if_neg (show ¬(start_new_frame st ts seq).current_frame_start_ts +
            (start_new_frame st ts seq).frame_period_ns ≤ ts
          from by simp only [start_new_frame]; omega)]
    have hap := atcf_append (start_new_frame st ts seq) ts pts seq
      (by simp only [start_new_frame, List.length_nil]; omega)
    have hpr := atcf_proj (start_new_frame st ts seq) ts pts seq
    refine ⟨rfl, ?_, ?_, ?_, ?_, ?_, ?_⟩
    · rw [hpr.1]; rfl
    · exact hap.2.1
    · rw [hpr.2.1]; rfl
    · exact hap.2.2.1
    · rw [hap.1]; simp [start_new_frame]
    · rw [hap.2.2.2.1]; simp [start_new_frame]
  · intro hopen hlt
    unfold add_packet
    rw [if_neg (show ¬st.current_frame_start_ts < 0 from by omega),
        if_pos hlt]
    exact ⟨rfl, rfl⟩
  · intro hopen h1 h2
    unfold add_packet
    rw [if_neg (show ¬st.current_frame_start_ts < 0 from by omega),
        if_neg (show ¬ts < st.current_frame_start_ts from by omega),
        if_neg (show ¬st.current_frame_start_ts + st.frame_period_ns ≤ ts
          from by omega)]
    refine ⟨rfl, rfl, ?_⟩
    intro hcap
    have hap := atcf_append st ts pts seq hcap
    have hpr := atcf_proj st ts pts seq
    exact ⟨hap.1, hap.2.1, hap.2.2.1, hap.2.2.2.1, hpr.1, hpr.2.1⟩
  · intro hopen hper hts
    unfold add_packet
    rw [if_neg (show ¬st.current_frame_start_ts < 0 from by omega),
        if_neg (show ¬ts < st.current_frame_start_ts from by omega),
        if_pos hts]
    have hpr := atcf_proj
      (start_new_frame (close_current_frame st).1 ts seq) ts pts seq
    have hcfg := close_proj st
    refine ⟨?_, ?_, ?_, ?_, ?_⟩
    · intro hne
      show (close_current_frame st).2 = _
      unfold close_current_frame
      rw [if_neg (by simp [List.length_eq_zero, hne])]
    · intro he
      show (close_current_frame st).2 = none
      unfold close_current_frame
      rw [if_pos (by simp [he])]
    · show (add_to_current_frame _ ts pts seq).current_frame_start_ts = ts
      rw [hpr.1]
      simp [start_new_frame]
    · show (add_to_current_frame _ ts pts seq).current_seq_first = seq
      rw [hpr.2.1]
      simp [start_new_frame]
    · intro hcap
      have hcap2 : (start_new_frame (close_current_frame st).1 ts
          seq).point_buffer.length + pts.length ≤
          (start_new_frame (close_current_frame st).1 ts
            seq).max_frame_points := by
        simp only [start_new_frame, List.length_nil, Nat.zero_add]
        rw [hcfg.2.1]
        exact hcap
      have hap2 := atcf_append
        (start_new_frame (close_current_frame st).1 ts seq) ts pts seq hcap2
      refine ⟨?_, hap2.2.1, hap2.2.2.1, ?_⟩
      · rw [hap2.1]
        simp [start_new_frame]
      · rw [hap2.2.2.2.1]
        simp [start_new_frame]

/-- Witness for C4 (amended) at a concrete in-window append. -/
theorem add_packet_case_behavior_witness :
    (mkFrameBuilder Nat 100 5).current_frame_start_ts < 0 ∧
    0 < (mkFrameBuilder Nat 100 5).frame_period_ns ∧
    ([3, 4] : List Nat).length ≤ (mkFrameBuilder Nat 100 5).max_frame_points ∧
    ((add_packet (mkFrameBuilder Nat 100 5) 7 [3, 4] 42).2 = none ∧
     (add_packet (mkFrameBuilder Nat 100 5) 7 [3, 4] 42).1.current_frame_start_ts = 7 ∧
     (add_packet (mkFrameBuilder Nat 100 5) 7 [3, 4] 42).1.current_frame_end_ts = 7 ∧
     (add_packet (mkFrameBuilder Nat 100 5) 7 [3, 4] 42).1.current_seq_first = 42 ∧
     (add_packet (mkFrameBuilder Nat 100 5) 7 [3, 4] 42).1.current_seq_last = 42 ∧
     (add_packet (mkFrameBuilder Nat 100 5) 7 [3, 4] 42).1.point_buffer = [3, 4] ∧
     (add_packet (mkFrameBuilder Nat 100 5) 7 [3, 4] 42).1.current_pkt_count = 1) :=
  ⟨by decide, by decide, by decide,
   (add_packet_case_behavior (mkFrameBuilder Nat 100 5) 7 [3, 4] 42).1
     (by decide) (by decide) (by decide)⟩

-- ===========================================================================
-- C8: overflow side effects
-- ===========================================================================

/-- Counterexample to claim C8 as stated: a call whose record would
overflow the capacity but whose timestamp also rolls the window over does
return a frame (the closed previous frame), and the frame state is reset
to the new window rather than unchanged. -/
theorem overflow_rollover_counterexample :
    (5 : Nat) <
      ((add_packet (mkFrameBuilder Nat 100 5) 0 [1, 2, 3] 0).1
        ).point_buffer.length + 10 ∧
    ((add_packet (mkFrameBuilder Nat 100 5) 0 [1, 2, 3] 0).1
      ).current_frame_start_ts = 0 ∧
    ((add_packet (add_packet (mkFrameBuilder Nat 100 5) 0 [1, 2, 3] 0).1
      100 [10, 11, 12, 13, 14, 15, 16, 17, 18, 19] 1).2).isSome = true ∧
    (add_packet (add_packet (mkFrameBuilder Nat 100 5) 0 [1, 2, 3] 0).1
      100 [10, 11, 12, 13, 14, 15, 16, 17, 18, 19] 1).1.current_frame_start_ts
      = 100 ∧
    (add_packet (add_packet (mkFrameBuilder Nat 100 5) 0 [1, 2, 3] 0).1
      100 [10, 11, 12, 13, 14, 15, 16, 17, 18, 19] 1).1.stats.overflow_frames
      = (add_packet (mkFrameBuilder Nat 100 5) 0 [1, 2, 3] 0).1.stats.overflow_frames + 1 := by
  refine ⟨by decide, by decide, by decide, by decide, by decide⟩

/-- Claim C8 as amended: for a call `add(record)` with a frame open whose
timestamp stays inside the current window and whose points would make
`current_points + n > max_frame_points`: the record is dropped,
`overflow_frames` is incremented by one, no frame is returned, and the
buffered points, point count, `start_ts`, `end_ts`, `seq_first`,
`seq_last` and `pkt_count` of the open frame are all unchanged (only the
sequence tracker and its gap/reorder counters still advance). -/
theorem add_packet_overflow_effect {P : Type} (st : FBState P) (ts : Int)
    (pts : List P) (seq : Nat) (hopen : 0 ≤ st.current_frame_start_ts)
    (h1 : st.current_frame_start_ts ≤ ts)
    (h2 : ts < st.current_frame_start_ts + st.frame_period_ns)
    (hover : st.max_frame_points < st.point_buffer.length + pts.length) :
    (add_packet st ts pts seq).2 = none ∧
    (add_packet st ts pts seq).1.point_buffer = st.point_buffer ∧
    (add_packet st ts pts seq).1.current_frame_start_ts =
      st.current_frame_start_ts ∧
    (add_packet st ts pts seq).1.current_frame_end_ts =
      st.current_frame_end_ts ∧
    (add_packet st ts pts seq).1.current_seq_first = st.current_seq_first ∧
    (add_packet st ts pts seq).1.current_seq_last = st.current_seq_last ∧
    (add_packet st ts pts seq).1.current_pkt_count = st.current_pkt_count ∧
    (add_packet st ts pts seq).1.stats.overflow_frames =
      st.stats.overflow_frames + 1 ∧
    (add_packet st ts pts seq).1.stats.late_packets =
      st.stats.late_packets ∧
    (add_packet st ts pts seq).1.stats.packets_added =
      st.stats.packets_added ∧
    (add_packet st ts pts seq).1.stats.points_added =
      st.stats.points_added ∧
    (add_packet st ts pts seq).1.stats.frames_built =
      st.stats.frames_built := by
  have heq : (add_packet st ts pts seq).1 = add_to_current_frame st ts pts seq ∧
      (add_packet st ts pts seq).2 = none := by
    unfold add_packet
    rw [if_neg (show ¬st.current_frame_start_ts < 0 from by omega),
        if_neg (show ¬ts < st.current_frame_start_ts from by omega),
        if_neg (show ¬st.current_frame_start_ts + st.frame_period_ns ≤ ts
          from by omega)]
    exact ⟨rfl, rfl⟩
  have hov := atcf_overflow st ts pts seq hover
  have hpr := atcf_proj st ts pts seq
  rw [heq.1]
  exact ⟨heq.2, hov.1, hpr.1, hov.2.1, hpr.2.1, hov.2.2.1, hov.2.2.2.1,
    hov.2.2.2.2.2.1, hpr.2.2.2.2.2.1, hov.2.2.2.2.2.2.1,
    hov.2.2.2.2.2.2.2, hpr.2.2.2.2.2.2⟩

/-- Witness for C8 (amended) at a concrete in-window overflow call. -/
theorem add_packet_overflow_effect_witness :
    (0 : Int) ≤ ((add_packet (mkFrameBuilder Nat 100 5) 0 [1, 2, 3] 0).1
      ).current_frame_start_ts ∧
    ((add_packet (mkFrameBuilder Nat 100 5) 0 [1, 2, 3] 0).1
      ).current_frame_start_ts ≤ 50 ∧
    (50 : Int) < ((add_packet (mkFrameBuilder Nat 100 5) 0 [1, 2, 3] 0).1
        ).current_frame_start_ts +
      ((add_packet (mkFrameBuilder Nat 100 5) 0 [1, 2, 3] 0).1
        ).frame_period_ns ∧
    ((add_packet (mkFrameBuilder Nat 100 5) 0 [1, 2, 3] 0).1
      ).max_frame_points <
      ((add_packet (mkFrameBuilder Nat 100 5) 0 [1, 2, 3] 0).1
        ).point_buffer.length + ([9, 9, 9] : List Nat).length ∧
    (add_packet (add_packet (mkFrameBuilder Nat 100 5) 0 [1, 2, 3] 0).1
      50 [9, 9, 9] 1).2 = none :=
  ⟨by decide, by decide, by decide, by decide,
   (add_packet_overflow_effect
     (add_packet (mkFrameBuilder Nat 100 5) 0 [1, 2, 3] 0).1 50 [9, 9, 9] 1
     (by decide) (by decide) (by decide) (by decide)).1⟩

-- ===========================================================================
-- C5: invariants of emitted frames
-- ===========================================================================

/-- Inductive invariant of a reachable `FrameBuilder` state (for sessions
whose record timestamps are non-negative, as the int64 timestamps cast from
the uint64 wire field are in practice): the buffer respects the capacity;
the `-1` start sentinel implies an empty buffer; and while a frame is open
its `end_ts` and every admitted record lie inside the window. -/
def StInv {P : Type} (st : FBState P) : Prop :=
  0 < st.frame_period_ns ∧
  st.point_buffer.length ≤ st.max_frame_points ∧
  (st.current_frame_start_ts < 0 →
    st.point_buffer = [] ∧ st.current_admitted = []) ∧
  (0 ≤ st.current_frame_start_ts →
    st.current_frame_start_ts ≤ st.current_frame_end_ts ∧
    st.current_frame_end_ts < st.current_frame_start_ts + st.frame_period_ns ∧
    ∀ m ∈ st.current_admitted, st.current_frame_start_ts ≤ m.ts ∧
      m.ts < st.current_frame_start_ts + st.frame_period_ns)

/-- What claim C5 (as amended) asserts of an emitted frame: its time span
is inside one window, its size respects the capacity, and every
contributing record's timestamp lies in `[start_ts, start_ts + period)`. -/
def FrameGood {P : Type} (period : Int) (maxp : Nat) (F : FBFrame P) : Prop :=
  F.start_ts_ns ≤ F.end_ts_ns ∧
  F.end_ts_ns < F.start_ts_ns + period ∧
  F.point_count ≤ maxp ∧
  ∀ m ∈ F.admitted, F.start_ts_ns ≤ m.ts ∧ m.ts < F.start_ts_ns + period

lemma start_new_inv {P : Type} (st : FBState P) (ts : Int) (seq : Nat)
    (h : StInv st) : StInv (start_new_frame st ts seq) := by
  refine ⟨h.1, by simp [start_new_frame], ?_, ?_⟩
  · intro _
    exact ⟨rfl, rfl⟩
  · intro _
    have hper : (0 : Int) < st.frame_period_ns := h.1
    exact ⟨le_refl _, by simp [start_new_frame]; omega, by simp [start_new_frame]⟩

lemma close_inv {P : Type} (st : FBState P) (h : StInv st) :
    StInv (close_current_frame st).1 ∧
    ∀ F, (close_current_frame st).2 = some F →
      FrameGood st.frame_period_ns st.max_frame_points F := by
  unfold close_current_frame
  by_cases hb : st.point_buffer.length = 0
  · rw [if_pos hb]
    exact ⟨h, by simp⟩
  · rw [if_neg hb]
    constructor
    · refine ⟨h.1, by simp, ?_, ?_⟩
      · intro _
        exact ⟨rfl, rfl⟩
      · intro habs
        have h2 : (0 : Int) ≤ -1 := habs
        omega
    · intro F hF
      simp only [Option.some.injEq] at hF
      have hopen : 0 ≤ st.current_frame_start_ts := by
        by_contra hc
        push_neg at hc
        exact hb (by rw [(h.2.2.1 hc).1]; rfl)
      have hop := h.2.2.2 hopen
      subst hF
      exact ⟨hop.1, hop.2.1, h.2.1, hop.2.2⟩

lemma atcf_inv {P : Type} (st : FBState P) (ts : Int) (pts : List P)
    (seq : Nat) (h : StInv st) (hopen : 0 ≤ st.current_frame_start_ts)
    (h1 : st.current_frame_start_ts ≤ ts)
    (h2 : ts < st.current_frame_start_ts + st.frame_period_ns) :
    StInv (add_to_current_frame st ts pts seq) := by
  have hp := atcf_proj st ts pts seq
  by_cases hov : st.max_frame_points < st.point_buffer.length + pts.length
  · have ho := atcf_overflow st ts pts seq hov
    unfold StInv
    rw [hp.2.2.1, hp.2.2.2.1, ho.1, hp.1, ho.2.1, ho.2.2.2.2.1]
    exact h
  · have ha := atcf_append st ts pts seq (by omega)
    unfold StInv
    rw [hp.2.2.1, hp.2.2.2.1, ha.1, hp.1, ha.2.1, ha.2.2.2.2]
    refine ⟨h.1, by simp [List.length_append]; omega, ?_, ?_⟩
    · intro hc
      exact absurd hc (by omega)
    · intro _
      refine ⟨by omega, h2, ?_⟩
      intro m hm
      rw [List.mem_append] at hm
      rcases hm with hm | hm
      · exact (h.2.2.2 hopen).2.2 m hm
      · simp only [List.mem_singleton] at hm
        subst hm
        exact ⟨h1, h2⟩

lemma add_packet_inv {P : Type} (st : FBState P) (ts : Int) (pts : List P)
    (seq : Nat) (h : StInv st) (hts : 0 ≤ ts) :
    StInv (add_packet st ts pts seq).1 ∧
    ∀ F, (add_packet st ts pts seq).2 = some F →
      FrameGood st.frame_period_ns st.max_frame_points F := by
  unfold add_packet
  by_cases hneg : st.current_frame_start_ts < 0
  · rw [if_pos hneg]
    have hinv' : StInv (start_new_frame st ts seq) := start_new_inv st ts seq h
    rw [if_neg (show ¬ts < (start_new_frame st ts seq).current_frame_start_ts
          from by simp [start_new_frame]),
        if_neg (show ¬(start_new_frame st ts seq).current_frame_start_ts +
            (start_new_frame st ts seq).frame_period_ns ≤ ts
          from by
            have hper : (0 : Int) < st.frame_period_ns := h.1
            simp only [start_new_frame]
            omega)]
    refine ⟨?_, by simp⟩
    exact atcf_inv _ ts pts seq hinv' (by simpa [start_new_frame] using hts)
      (by simp [start_new_frame])
      (by
        have hper : (0 : Int) < st.frame_period_ns := h.1
        simp only [start_new_frame]
        omega)
  · rw [if_neg hneg]
    by_cases hlt : ts < st.current_frame_start_ts
    · rw [if_pos hlt]
      exact ⟨h, by simp⟩
    · rw [if_neg hlt]
      by_cases hro : st.current_frame_start_ts + st.frame_period_ns ≤ ts
      · rw [if_pos hro]
        have hc := close_inv st h
        have hs2 := start_new_inv (close_current_frame st).1 ts seq hc.1
        have hcp := close_proj st
        constructor
        · refine atcf_inv _ ts pts seq hs2
            (by simpa [start_new_frame] using hts)
            (by simp [start_new_frame]) ?_
          have hper : (0 : Int) <
              (close_current_frame st).1.frame_period_ns := hc.1.1
          simp only [start_new_frame]
          omega
        · exact hc.2
      · rw [if_neg hro]
        refine ⟨?_, by simp⟩
        exact atcf_inv st ts pts seq h (by omega) (by omega) (by omega)

lemma add_packet_proj {P : Type} (st : FBState P) (ts : Int) (pts : List P)
    (seq : Nat) :
    (add_packet st ts pts seq).1.frame_period_ns = st.frame_period_ns ∧
    (add_packet st ts pts seq).1.max_frame_points = st.max_frame_points := by
  unfold add_packet
  by_cases hneg : st.current_frame_start_ts < 0
  · rw [if_pos hneg]
    by_cases hlt : ts < (start_new_frame st ts seq).current_frame_start_ts
    · rw [if_pos hlt]
      exact ⟨rfl, rfl⟩
    · rw [if_neg hlt]
      by_cases hro : (start_new_frame st ts seq).current_frame_start_ts +
          (start_new_frame st ts seq).frame_period_ns ≤ ts
      · rw [if_pos hro]
        have hp := atcf_proj (start_new_frame
          (close_current_frame (start_new_frame st ts seq)).1 ts seq) ts pts seq
        have hcp := close_proj (start_new_frame st ts seq)
        constructor
        · rw [hp.2.2.1]
          show (close_current_frame (start_new_frame st ts seq)
            ).1.frame_period_ns = _
          rw [hcp.1]
          rfl
        · rw [hp.2.2.2.1]
          show (close_current_frame (start_new_frame st ts seq)
            ).1.max_frame_points = _
          rw [hcp.2.1]
          rfl
      · rw [if_neg hro]
        have hp := atcf_proj (start_new_frame st ts seq) ts pts seq
        exact ⟨by rw [hp.2.2.1]; rfl, by rw [hp.2.2.2.1]; rfl⟩
  · rw [if_neg hneg]
    by_cases hlt : ts < st.current_frame_start_ts
    · rw [if_pos hlt]
      exact ⟨rfl, rfl⟩
    · rw [if_neg hlt]
      by_cases hro : st.current_frame_start_ts + st.frame_period_ns ≤ ts
      · rw [if_pos hro]
        have hp := atcf_proj (start_new_frame
          (close_current_frame st).1 ts seq) ts pts seq
        have hcp := close_proj st
        constructor
        · rw [hp.2.2.1]
          show (close_current_frame st).1.frame_period_ns = _
          rw [hcp.1]
        · rw [hp.2.2.2.1]
          show (close_current_frame st).1.max_frame_points = _
          rw [hcp.2.1]
      · rw [if_neg hro]
        have hp := atcf_proj st ts pts seq
        exact ⟨hp.2.2.1, hp.2.2.2.1⟩

lemma flush_good {P : Type} (st : FBState P) (h : StInv st) :
    ∀ F, (fbFlush st).2 = some F →
      FrameGood st.frame_period_ns st.max_frame_points F := by
  unfold fbFlush
  split_ifs with hs
  · simp
  · exact (close_inv st h).2

lemma runAdds_inv {P : Type} : ∀ (inputs : List (Int × List P × Nat))
    (st : FBState P), StInv st → (∀ i ∈ inputs, 0 ≤ i.1) →
    StInv (runAdds st inputs).1 ∧
    (runAdds st inputs).1.frame_period_ns = st.frame_period_ns ∧
    (runAdds st inputs).1.max_frame_points = st.max_frame_points ∧
    ∀ F ∈ (runAdds st inputs).2,
      FrameGood st.frame_period_ns st.max_frame_points F
  | [], st, h, _ => ⟨h, rfl, rfl, by simp [runAdds]⟩
  | r :: rest, st, h, hts => by
      have hts0 : 0 ≤ r.1 := hts r (List.mem_cons_self r rest)
      have hstep := add_packet_inv st r.1 r.2.1 r.2.2 h hts0
      have hcfg := add_packet_proj st r.1 r.2.1 r.2.2
      have ih := runAdds_inv rest (add_packet st r.1 r.2.1 r.2.2).1 hstep.1
        (fun i hi => hts i (List.mem_cons_of_mem r hi))
      simp only [runAdds]
      refine ⟨ih.1, by rw [ih.2.1, hcfg.1], by rw [ih.2.2.1, hcfg.2], ?_⟩
      intro F hF
      rw [List.mem_append] at hF
      rcases hF with hF | hF
      · cases ho : (add_packet st r.1 r.2.1 r.2.2).2 with
        | none =>
            rw [ho] at hF
            simp at hF
        | some F0 =>
            rw [ho] at hF
            simp only [Option.elim, List.mem_singleton] at hF
            subst hF
            exact hstep.2 _ ho
      · have hg := ih.2.2.2 F hF
        rw [hcfg.1, hcfg.2] at hg
        exact hg

/-- Counterexample to claim C5 as stated: with a 100 ns window, records at
device times 0, 50 and 30 (mildly reordered, all inside the window) build
one frame; the record with timestamp 50 contributed a point, yet the
frame's `end_ts_ns` is 30 — `end_ts` is the timestamp of the *last*
admitted record, not the maximum, so a contributor lies outside
`[start_ts, end_ts]`. -/
theorem frame_end_ts_not_max_counterexample :
    (fbFlush (runAdds (mkFrameBuilder Nat 100 1000)
      [(0, ([1], 0)), (50, ([2], 1)), (30, ([3], 2))]).1).2 =
      some { xyz_data := [1, 2, 3], point_count := 3, start_ts_ns := 0,
             end_ts_ns := 30, seq_first := 0, seq_last := 2, pkt_count := 3,
             admitted := [⟨0, 0, 1⟩, ⟨50, 1, 1⟩, ⟨30, 2, 1⟩] } ∧
    ¬((50 : Int) ≤ 30) := by
  refine ⟨by decide, by decide⟩

/-- Claim C5 as amended: every frame emitted by the builder — returned from
`add_packet` on roll-over or from `flush` — satisfies
`start_ts_ns ≤ end_ts_ns < start_ts_ns + frame_period` and
`point_count ≤ max_frame_points`, and every record that contributed points
has its device timestamp in `[start_ts_ns, start_ts_ns + frame_period)`
(not necessarily `≤ end_ts_ns`, since `end_ts_ns` is the last admitted
timestamp rather than the maximum).  Stated for positive frame periods and
non-negative record timestamps. -/
theorem frame_builder_invariants {P : Type} (period : Int) (maxp : Nat)
    (inputs : List (Int × List P × Nat)) (hper : 0 < period)
    (hts : ∀ i ∈ inputs, 0 ≤ i.1) :
    (∀ F ∈ (runAdds (mkFrameBuilder P period maxp) inputs).2,
      FrameGood period maxp F) ∧
    (∀ F, (fbFlush (runAdds (mkFrameBuilder P period maxp) inputs).1).2 =
        some F → FrameGood period maxp F) := by
  have hinit : StInv (mkFrameBuilder P period maxp) := by
    refine ⟨hper, by simp [mkFrameBuilder], ?_, ?_⟩
    · intro _
      exact ⟨rfl, rfl⟩
    · intro habs
      have h2 : (0 : Int) ≤ -1 := habs
      omega
  have hrun := runAdds_inv inputs (mkFrameBuilder P period maxp) hinit hts
  constructor
  · intro F hF
    exact hrun.2.2.2 F hF
  · intro F hF
    have hg := flush_good (runAdds (mkFrameBuilder P period maxp) inputs).1
      hrun.1 F hF
    rw [hrun.2.1, hrun.2.2.1] at hg
    exact hg

/-- Witness for C5 (amended) at a concrete two-record session. -/
theorem frame_builder_invariants_witness :
    (0 : Int) < 100 ∧
    (∀ i ∈ ([(0, ([5], 0)), (150, ([6], 1))] :
        List (Int × List Nat × Nat)), 0 ≤ i.1) ∧
    ((∀ F ∈ (runAdds (mkFrameBuilder Nat 100 10)
        [(0, ([5], 0)), (150, ([6], 1))]).2, FrameGood 100 10 F) ∧
     (∀ F, (fbFlush (runAdds (mkFrameBuilder Nat 100 10)
        [(0, ([5], 0)), (150, ([6], 1))]).1).2 = some F →
        FrameGood 100 10 F)) :=
  ⟨by decide, by decide,
   frame_builder_invariants 100 10 [(0, ([5], 0)), (150, ([6], 1))]
     (by decide) (by decide)⟩

-- ===========================================================================
-- C3: filter and segmentation
-- ===========================================================================

lemma filterLoop_take (mn mx : FQ) (d : Int) :
    ∀ (l : List RawPoint) (i count : Nat),
    filterLoop mn mx d i count l =
      (survivorsFrom mn mx d i l).take (2048 - count)
  | [], i, count => by simp [filterLoop, survivorsFrom]
  | p :: rest, i, count => by
      by_cases hc : 2048 ≤ count
      · rw [show filterLoop mn mx d i count (p :: rest) =
            (if 2048 ≤ count then filterLoop mn mx d (i + 1) count rest
             else if keepPoint mn mx d i p then
               convertPoint p :: filterLoop mn mx d (i + 1) (count + 1) rest
             else filterLoop mn mx d (i + 1) count rest) from rfl,
           if_pos hc, filterLoop_take mn mx d rest (i + 1) count,
           Nat.sub_eq_zero_of_le hc]
        simp
      · rw [show filterLoop mn mx d i count (p :: rest) =
            (if 2048 ≤ count then filterLoop mn mx d (i + 1) count rest
             else if keepPoint mn mx d i p then
               convertPoint p :: filterLoop mn mx d (i + 1) (count + 1) rest
             else filterLoop mn mx d (i + 1) count rest) from rfl,
           if_neg hc]
        by_cases hk : keepPoint mn mx d i p
        · rw [if_pos hk, filterLoop_take mn mx d rest (i + 1) (count + 1)]
          rw [show survivorsFrom mn mx d i (p :: rest) =
              (if keepPoint mn mx d i p then
                convertPoint p :: survivorsFrom mn mx d (i + 1) rest
               else survivorsFrom mn mx d (i + 1) rest) from rfl,
             if_pos hk]
          rw [show 2048 - count = (2048 - (count + 1)) + 1 from by omega]
          rfl
        · rw [if_neg hk, filterLoop_take mn mx d rest (i + 1) count]
          rw [show survivorsFrom mn mx d i (p :: rest) =
              (if keepPoint mn mx d i p then
                convertPoint p :: survivorsFrom mn mx d (i + 1) rest
               else survivorsFrom mn mx d (i + 1) rest) from rfl,
             if_neg hk]

lemma filterSweep_eq_survivors (mn mx : FQ) (d : Int) (raw : List RawPoint)
    (h : (survivors mn mx d raw).length ≤ 2048) :
    filterSweep mn mx d raw = survivors mn mx d raw := by
  unfold filterSweep survivors
  rw [filterLoop_take]
  exact List.take_of_length_le (by simpa [survivors] using h)

lemma send_segmented_join : ∀ (n : Nat) (pts : List SendPoint),
    pts.length ≤ n → ∀ (ts s : Nat),
    (((send_segmented ts pts s).1.map (fun dg => dg.points)).flatten = pts) ∧
    (∀ dg ∈ (send_segmented ts pts s).1,
      dg.device_ts = ts ∧ 1 ≤ dg.points.length ∧ dg.points.length ≤ 105)
  | n, [], _, ts, s => by
      rw [send_segmented]
      simp
  | 0, p :: pts, hlen, ts, s => by simp at hlen
  | n + 1, p :: pts, hlen, ts, s => by
      have hne : p :: pts ≠ [] := by simp
      rw [send_segmented, dif_neg hne]
      have hrest : ((p :: pts).drop MAX_POINTS_PER_PACKET).length ≤ n := by
        simp only [List.length_drop, List.length_cons, MAX_POINTS_PER_PACKET]
        simp only [List.length_cons] at hlen
        omega
      have ih := send_segmented_join n ((p :: pts).drop MAX_POINTS_PER_PACKET)
        hrest ts ((s + 1) % UINT32_MOD)
      constructor
      · simp only [List.map_cons, List.flatten_cons, ih.1]
        exact List.take_append_drop _ _
      · intro dg hdg
        rcases List.mem_cons.mp hdg with hdg | hdg
        · subst hdg
          refine ⟨rfl, ?_, ?_⟩
          · simp only [List.length_take, List.length_cons]
            rw [MAX_POINTS_PER_PACKET]
            omega
          · simp only [List.length_take]
            rw [MAX_POINTS_PER_PACKET]
            omega
        · exact ih.2 dg hdg

lemma send_segmented_seqs : ∀ (n : Nat) (pts : List SendPoint),
    pts.length ≤ n → ∀ (ts s : Nat), s < UINT32_MOD →
    ∀ (i : Nat) (dg : Datagram),
    (send_segmented ts pts s).1[i]? = some dg →
    dg.seq = (s + i) % UINT32_MOD
  | _, [], _, ts, s, hs, i, dg, h => by
      rw [send_segmented] at h
      simp at h
  | 0, p :: pts, hlen, ts, s, hs, i, dg, h => by simp at hlen
  | n + 1, p :: pts, hlen, ts, s, hs, i, dg, h => by
      have hne : p :: pts ≠ [] := by simp
      have hrest : ((p :: pts).drop MAX_POINTS_PER_PACKET).length ≤ n := by
        simp only [List.length_drop, List.length_cons, MAX_POINTS_PER_PACKET]
        simp only [List.length_cons] at hlen
        omega
      rw [send_segmented, dif_neg hne] at h
      cases i with
      | zero =>
          simp only [List.getElem?_cons_zero, Option.some.injEq] at h
          subst h
          simp [Nat.mod_eq_of_lt hs]
      | succ j =>
          simp only [List.getElem?_cons_succ] at h
          have ih := send_segmented_seqs n
            ((p :: pts).drop MAX_POINTS_PER_PACKET) hrest ts
            ((s + 1) % UINT32_MOD) (Nat.mod_lt _ (by rw [UINT32_MOD]; omega))
            j dg h
          rw [ih, Nat.mod_add_mod]
          congr 1
          omega

/-- Claim C3 as amended: for every sweep whose filter-surviving subset has
at most 2048 points (the callback's filter-buffer capacity), the filtered
buffer equals exactly the surviving subset — the raw points, in traversal
order, that are not the (0,0,0) sentinel, whose squared metre range lies in
`[min_range^2, max_range^2]` and whose raw index is divisible by the
downsample factor when it exceeds 1 — and, with every transmit succeeding,
segmentation slices it into datagrams of 1 to 105 points whose
concatenation restores the subset in order, all carrying the sweep's device
timestamp with strictly consecutive (mod 2^32) sequence numbers. -/
theorem sweep_filter_segmentation (mn mx : FQ) (d : Int)
    (raw : List RawPoint) (ts s : Nat) (hs : s < UINT32_MOD)
    (hcap : (survivors mn mx d raw).length ≤ 2048) :
    (filterSweep mn mx d raw = survivors mn mx d raw) ∧
    (((send_segmented ts (filterSweep mn mx d raw) s).1.map
        (fun dg => dg.points)).flatten = survivors mn mx d raw) ∧
    (∀ dg ∈ (send_segmented ts (filterSweep mn mx d raw) s).1,
      dg.device_ts = ts ∧ 1 ≤ dg.points.length ∧
      dg.points.length ≤ MAX_POINTS_PER_PACKET) ∧
    (∀ (i : Nat) (dg : Datagram),
      (send_segmented ts (filterSweep mn mx d raw) s).1[i]? = some dg →
      dg.seq = (s + i) % UINT32_MOD) := by
  have hfs := filterSweep_eq_survivors mn mx d raw hcap
  have hmain := send_segmented_join (filterSweep mn mx d raw).length
    (filterSweep mn mx d raw) (le_refl _) ts s
  have hseqs := fun (i : Nat) (dg : Datagram) =>
    send_segmented_seqs (filterSweep mn mx d raw).length
      (filterSweep mn mx d raw) (le_refl _) ts s hs i dg
  refine ⟨hfs, ?_, ?_, hseqs⟩
  · rw [hmain.1, hfs]
  · intro dg hdg
    have := hmain.2 dg hdg
    rw [MAX_POINTS_PER_PACKET]
    exact this

/-- Witness for C3 (amended) at a concrete three-point sweep (one kept, one
sentinel, one below the minimum range). -/
theorem sweep_filter_segmentation_witness :
    (0 : Nat) < UINT32_MOD ∧
    (survivors ⟨1, 10⟩ ⟨20, 1⟩ 1
      [⟨1000, 0, 0, 5⟩, ⟨0, 0, 0, 0⟩, ⟨40, 0, 0, 7⟩]).length ≤ 2048 ∧
    ((filterSweep ⟨1, 10⟩ ⟨20, 1⟩ 1
        [⟨1000, 0, 0, 5⟩, ⟨0, 0, 0, 0⟩, ⟨40, 0, 0, 7⟩] =
      survivors ⟨1, 10⟩ ⟨20, 1⟩ 1
        [⟨1000, 0, 0, 5⟩, ⟨0, 0, 0, 0⟩, ⟨40, 0, 0, 7⟩]) ∧
     (((send_segmented 99 (filterSweep ⟨1, 10⟩ ⟨20, 1⟩ 1
          [⟨1000, 0, 0, 5⟩, ⟨0, 0, 0, 0⟩, ⟨40, 0, 0, 7⟩]) 0).1.map
          (fun dg => dg.points)).flatten =
        survivors ⟨1, 10⟩ ⟨20, 1⟩ 1
          [⟨1000, 0, 0, 5⟩, ⟨0, 0, 0, 0⟩, ⟨40, 0, 0, 7⟩]) ∧
     (∀ dg ∈ (send_segmented 99 (filterSweep ⟨1, 10⟩ ⟨20, 1⟩ 1
          [⟨1000, 0, 0, 5⟩, ⟨0, 0, 0, 0⟩, ⟨40, 0, 0, 7⟩]) 0).1,
        dg.device_ts = 99 ∧ 1 ≤ dg.points.length ∧
        dg.points.length ≤ MAX_POINTS_PER_PACKET) ∧
     (∀ (i : Nat) (dg : Datagram),
        (send_segmented 99 (filterSweep ⟨1, 10⟩ ⟨20, 1⟩ 1
          [⟨1000, 0, 0, 5⟩, ⟨0, 0, 0, 0⟩, ⟨40, 0, 0, 7⟩]) 0).1[i]? =
          some dg →
        dg.seq = (0 + i) % UINT32_MOD)) :=
  ⟨by decide, by decide,
   sweep_filter_segmentation ⟨1, 10⟩ ⟨20, 1⟩ 1
     [⟨1000, 0, 0, 5⟩, ⟨0, 0, 0, 0⟩, ⟨40, 0, 0, 7⟩] 99 0 (by decide)
     (by decide)⟩

/-- A sweep of 2049 identical valid returns at 1 m range. -/
def bigSweep : List RawPoint := List.replicate 2049 ⟨1000, 0, 0, 0⟩

lemma survivorsFrom_replicate_keep (mn mx : FQ) (d : Int) (pt : RawPoint)
    (hk : ∀ i, keepPoint mn mx d i pt) : ∀ (n i : Nat),
    (survivorsFrom mn mx d i (List.replicate n pt)).length = n
  | 0, i => by simp [survivorsFrom]
  | n + 1, i => by
      rw [List.replicate_succ]
      rw [show survivorsFrom mn mx d i (pt :: List.replicate n pt) =
          (if keepPoint mn mx d i pt then
            convertPoint pt :: survivorsFrom mn mx d (i + 1)
              (List.replicate n pt)
           else survivorsFrom mn mx d (i + 1) (List.replicate n pt))
          from rfl,
         if_pos (hk i), List.length_cons,
         survivorsFrom_replicate_keep mn mx d pt hk n (i + 1)]

lemma bigSweep_keep : ∀ i : Nat, keepPoint ⟨1, 10⟩ ⟨20, 1⟩ 1 i
    ⟨1000, 0, 0, 0⟩ := by
  intro i
  refine ⟨by decide, by decide, ?_⟩
  intro hc
  exact absurd hc.1 (by decide)

/-- Counterexample to claim C3 as stated: a sweep with 2049 filter-surviving
points overflows the callback's 2048-entry filter buffer, so the union of
the points across the sweep's datagrams (2048 points) is a strict prefix of
the filter-surviving subset (2049 points) rather than equal to it. -/
theorem filter_buffer_cap_counterexample :
    (filterSweep ⟨1, 10⟩ ⟨20, 1⟩ 1 bigSweep).length = 2048 ∧
    (survivors ⟨1, 10⟩ ⟨20, 1⟩ 1 bigSweep).length = 2049 ∧
    ((send_segmented 0 (filterSweep ⟨1, 10⟩ ⟨20, 1⟩ 1 bigSweep) 0).1.map
        (fun dg => dg.points)).flatten ≠
      survivors ⟨1, 10⟩ ⟨20, 1⟩ 1 bigSweep := by
  have h2 : (survivors ⟨1, 10⟩ ⟨20, 1⟩ 1 bigSweep).length = 2049 :=
    survivorsFrom_replicate_keep ⟨1, 10⟩ ⟨20, 1⟩ 1 ⟨1000, 0, 0, 0⟩
      bigSweep_keep 2049 0
  have h1 : (filterSweep ⟨1, 10⟩ ⟨20, 1⟩ 1 bigSweep).length = 2048 := by
    unfold filterSweep
    rw [filterLoop_take, List.length_take]
    have h2' : (survivorsFrom ⟨1, 10⟩ ⟨20, 1⟩ 1 0 bigSweep).length = 2049 :=
      survivorsFrom_replicate_keep ⟨1, 10⟩ ⟨20, 1⟩ 1 ⟨1000, 0, 0, 0⟩
        bigSweep_keep 2049 0
    rw [h2']
    omega
  refine ⟨h1, h2, ?_⟩
  intro h
  have hlen := congrArg List.length h
  rw [h2] at hlen
  have h3 := (send_segmented_join
    (filterSweep ⟨1, 10⟩ ⟨20, 1⟩ 1 bigSweep).length
    (filterSweep ⟨1, 10⟩ ⟨20, 1⟩ 1 bigSweep) (le_refl _) 0 0).1
  rw [h3, h1] at hlen
  omega
